import Mathlib

/-!
Verification of the `kubernetes_nodes` dynamic-inventory plugin
(`plugins/inventory/kubernetes_nodes.py`).

The source builds an Ansible inventory from Kubernetes nodes: it runs
`kubectl get nodes -o json` (with `-l` label selectors), and for each
returned node adds a host named `metadata.name`, sets the derived
variables `ansible_host` / `node_labels` / `node_annotations` /
`node_info`, applies the static `vars` option, evaluates composed
variables with `strict=True`, and finally runs composed-group and
keyed-group assignment with the configured strictness.

Python dict access `d[k]` raises `KeyError` on a missing key; `next()`
over an exhausted generator raises `StopIteration`; both abort the
enclosing build since `add_nodes` has no per-node exception handling.
The embedding models these as `BuildError` values threaded through
explicit state passing, with the inventory state at the moment of the
error preserved (matching in-place mutation of the Python inventory).
-/

namespace KubeNodes

/-- JSON-like values stored in host variables (strings, nested maps from
labels/annotations/nodeInfo, and booleans from predicate evaluation). -/
inductive Value where
  | str (s : String)
  | vbool (b : Bool)
  | vmap (entries : List (String × Value))

/-- An ordered association list, as Python's insertion-ordered `dict`. -/
abbrev AList (α : Type) := List (String × α)

/-- Python `d.get(k)` / `k in d`: first binding of `key`, if any. -/
def alistGet {α : Type} : AList α → String → Option α
  | [], _ => none
  | (k, v) :: rest, key => if k = key then some v else alistGet rest key

/-- Python `d[k] = v` on an insertion-ordered dict: update the existing
binding in place, or append a new one at the end. -/
def alistSet {α : Type} : AList α → String → α → AList α
  | [], key, v => [(key, v)]
  | (k, w) :: rest, key, v =>
      if k = key then (key, v) :: rest else (k, w) :: alistSet rest key v

/-- One entry of `node["status"]["addresses"]`: `{"type": ..., "address": ...}`. -/
structure Address where
  type : String
  address : String

/-- `node["metadata"]`: the fields the plugin reads, each possibly absent
(absence of a key makes the corresponding `d[k]` raise `KeyError`). -/
structure RawMetadata where
  name : Option String
  labels : Option (AList Value)
  annotations : Option (AList Value)

/-- `node["status"]`: the fields the plugin reads, each possibly absent. -/
structure RawStatus where
  addresses : Option (List Address)
  nodeInfo : Option (AList Value)

/-- One raw node description from the `kubectl` JSON output. -/
structure RawNode where
  metadata : Option RawMetadata
  status : Option RawStatus

/-- Errors that abort a build.  `keyError k` is Python's `KeyError: k`;
`stopIteration` is the `StopIteration` escaping `next()` when no address
matches (the spec's `AddressNotFound`); `expressionError` is a failed
strict template evaluation; `sourceUnavailable` is the
`AnsibleRuntimeError` raised by `get_nodes` (the spec's `SourceUnavailable`). -/
inductive BuildError where
  | keyError (key : String)
  | stopIteration
  | expressionError (name : String) (host : String)
  | sourceUnavailable (msg : String)
deriving DecidableEq

/-- Modelled from the spec: the expression language of §4.4 in the subset
the claims exercise — variable reference, literal, attribute access.  The
real plugin delegates evaluation to the host runtime's template engine
(Jinja2 via `Constructable._compose`), which is not part of this
repository. -/
inductive Expr where
  | var (name : String)
  | lit (v : Value)
  | attr (e : Expr) (field : String)

/-- Modelled from the spec (§4.4): evaluate an expression against a host
variable mapping; `none` is an unresolvable reference or type mismatch
(the spec's `ExpressionError`). -/
def evalExpr (vars : AList Value) : Expr → Option Value
  | .var n => alistGet vars n
  | .lit v => some v
  | .attr e field =>
      match evalExpr vars e with
      | some (.vmap m) => alistGet m field
      | _ => none

/-- Modelled from the spec (§4.5): one keyed-group specification — a key
expression and the configured group-name prefix and separator. -/
structure KeyedGroup where
  key : Expr
  pfx : String
  sep : String

/-- The validated option bag (DOCUMENTATION options plus the
`constructed` fragment's `compose` / `groups` / `keyed_groups` / `strict`). -/
structure Config where
  vars : AList Value
  address_from : String
  node_selectors : AList (Option String)
  compose : AList Expr
  groups : AList Expr
  keyed_groups : List KeyedGroup
  strict : Bool

/-- Modelled from the spec (§3, §6): the inventory sink consumed through
`add_host` / `set_variable` / `add_group`+`add_child`; hosts and groups
are insertion-ordered maps keyed by name. -/
structure Inventory where
  hosts : AList (AList Value)
  groups : AList (List String)

def emptyInventory : Inventory := ⟨[], []⟩

/-- `inventory.add_host(name)`: idempotent — an existing host is kept
with its variables, a new one is appended with no variables. -/
def addHostList : AList (AList Value) → String → AList (AList Value)
  | [], h => [(h, [])]
  | (k, vs) :: rest, h =>
      if k = h then (k, vs) :: rest else (k, vs) :: addHostList rest h

def addHost (inv : Inventory) (h : String) : Inventory :=
  { inv with hosts := addHostList inv.hosts h }

/-- `inventory.set_variable(host, key, value)`: overwrite the host's
binding for `key` (no-op on an unknown host; the plugin always adds the
host first). -/
def setHostVar : AList (AList Value) → String → String → Value → AList (AList Value)
  | [], _, _, _ => []
  | (k, vs) :: rest, h, key, v =>
      if k = h then (k, alistSet vs key v) :: rest
      else (k, vs) :: setHostVar rest h key v

def setVariable (inv : Inventory) (h : String) (key : String) (v : Value) : Inventory :=
  { inv with hosts := setHostVar inv.hosts h key v }

/-- `self.inventory.hosts[hostname].vars` (empty for an unknown host). -/
def hostVars (inv : Inventory) (h : String) : AList Value :=
  (alistGet inv.hosts h).getD []

/-- Add a host to a group, creating the group on first use. -/
def addToGroupList : AList (List String) → String → String → AList (List String)
  | [], g, h => [(g, [h])]
  | (k, ms) :: rest, g, h =>
      if k = g then (k, if h ∈ ms then ms else ms ++ [h]) :: rest
      else (k, ms) :: addToGroupList rest g h

def addHostToGroup (inv : Inventory) (g : String) (h : String) : Inventory :=
  { inv with groups := addToGroupList inv.groups g h }

/-- The `for varname, varval in self.get_option("vars").items()` loop. -/
def setStaticVars : Inventory → String → AList Value → Inventory
  | inv, _, [] => inv
  | inv, h, (k, v) :: rest => setStaticVars (setVariable inv h k v) h rest

/-- Modelled from the spec (§4.3): `Constructable._set_composite_vars`
(not part of this repository) — each composed variable is evaluated
against the variable mapping as it stands after the fixed and static
steps and assigned, overwriting any existing value; under strict
evaluation a failure is a hard error. -/
def setCompositeVarsAux (snapshot : AList Value) (host : String) (strict : Bool) :
    Inventory → AList Expr → Inventory × Option BuildError
  | inv, [] => (inv, none)
  | inv, (name, e) :: rest =>
      match evalExpr snapshot e with
      | some v => setCompositeVarsAux snapshot host strict (setVariable inv host name v) rest
      | none =>
          if strict then (inv, some (.expressionError name host))
          else setCompositeVarsAux snapshot host strict inv rest

def setCompositeVars (inv : Inventory) (host : String) (compose : AList Expr)
    (strict : Bool) : Inventory × Option BuildError :=
  setCompositeVarsAux (hostVars inv host) host strict inv compose

/-- Modelled from the spec (§4.5): `Constructable._add_host_to_composed_groups`
(not part of this repository) — for each `(groupName, predicate)` pair,
evaluate the predicate over the host's current variables; a true result
adds the host to the group (created if absent); an evaluation failure or
non-boolean result aborts under strict and is skipped otherwise. -/
def addHostToComposedGroupsAux (host : String) (strict : Bool) :
    Inventory → AList Expr → Inventory × Option BuildError
  | inv, [] => (inv, none)
  | inv, (gname, pred) :: rest =>
      match evalExpr (hostVars inv host) pred with
      | some (.vbool true) =>
          addHostToComposedGroupsAux host strict (addHostToGroup inv gname host) rest
      | some (.vbool false) => addHostToComposedGroupsAux host strict inv rest
      | _ =>
          if strict then (inv, some (.expressionError gname host))
          else addHostToComposedGroupsAux host strict inv rest

/-- Modelled from the spec (§4.5): `Constructable._add_host_to_keyed_groups`
(not part of this repository) — for each key specification, evaluate the
key over the host's current variables and add the host to the group named
`pfx ++ sep ++ value`; an evaluation failure or non-string value aborts
under strict and is skipped otherwise. -/
def addHostToKeyedGroupsAux (host : String) (strict : Bool) :
    Inventory → List KeyedGroup → Inventory × Option BuildError
  | inv, [] => (inv, none)
  | inv, kg :: rest =>
      match evalExpr (hostVars inv host) kg.key with
      | some (.str s) =>
          addHostToKeyedGroupsAux host strict
            (addHostToGroup inv (kg.pfx ++ kg.sep ++ s) host) rest
      | _ =>
          if strict then (inv, some (.expressionError kg.pfx host))
          else addHostToKeyedGroupsAux host strict inv rest

/-- The `next(addr for addr in node["status"]["addresses"] if
addr["type"] == self.get_option("address_from"))["address"]` generator:
the address value of the first entry whose type matches. -/
def resolveAddress : List Address → String → Option String
  | [], _ => none
  | a :: rest, pref =>
      if a.type = pref then some a.address else resolveAddress rest pref

/-- `InventoryModule.add_node`, line by line.  Each Python `d[k]` on a
missing key stops with `keyError k`; the inventory mutations performed
before the error are kept. -/
def add_node (cfg : Config) (inv : Inventory) (node : RawNode) :
    Inventory × Option BuildError :=
  match node.metadata with
  | none => (inv, some (.keyError "metadata"))
  | some md =>
    match md.name with
    | none => (inv, some (.keyError "name"))
    | some hostname =>
      match node.status with
      | none => (inv, some (.keyError "status"))
      | some st =>
        match st.addresses with
        | none => (inv, some (.keyError "addresses"))
        | some addrs =>
          match resolveAddress addrs cfg.address_from with
          | none => (inv, some .stopIteration)
          | some addr =>
            let inv := addHost inv hostname
            let inv := setVariable inv hostname "ansible_host" (.str addr)
            match md.labels with
            | none => (inv, some (.keyError "labels"))
            | some labels =>
              let inv := setVariable inv hostname "node_labels" (.vmap labels)
              match md.annotations with
              | none => (inv, some (.keyError "annotations"))
              | some annots =>
                let inv := setVariable inv hostname "node_annotations" (.vmap annots)
                match st.nodeInfo with
                | none => (inv, some (.keyError "nodeInfo"))
                | some ninfo =>
                  let inv := setVariable inv hostname "node_info" (.vmap ninfo)
                  let inv := setStaticVars inv hostname cfg.vars
                  match setCompositeVars inv hostname cfg.compose true with
                  | (inv, some e) => (inv, some e)
                  | (inv, none) =>
                    match addHostToComposedGroupsAux hostname cfg.strict inv cfg.groups with
                    | (inv, some e) => (inv, some e)
                    | (inv, none) =>
                      addHostToKeyedGroupsAux hostname cfg.strict inv cfg.keyed_groups

/-- `InventoryModule.add_nodes`: process nodes in order; an exception
from `add_node` aborts the loop (no per-node handler). -/
def add_nodes (cfg : Config) : Inventory → List RawNode → Inventory × Option BuildError
  | inv, [] => (inv, none)
  | inv, n :: rest =>
      match add_node cfg inv n with
      | (inv, none) => add_nodes cfg inv rest
      | (inv, some e) => (inv, some e)

/-- `cmd = ["kubectl", "get", "nodes", "-o", "json"]` followed by the
selector loop: `cmd.extend(("-l", k))` for an absent value,
`cmd.extend(("-l", f"{k}={v}"))` for a present one. -/
def buildCmd (selectors : AList (Option String)) : List String :=
  selectors.foldl
    (fun cmd kv =>
      match kv.2 with
      | none => cmd ++ ["-l", kv.1]
      | some v => cmd ++ ["-l", kv.1 ++ "=" ++ v])
    ["kubectl", "get", "nodes", "-o", "json"]

/-- Outcome of running the node-listing command: the parsed JSON output
(whose top-level `items` key may be absent) or a non-zero-exit failure
(`subprocess.CalledProcessError`, rendered as a message string). -/
inductive CmdOutcome where
  | success (items : Option (List RawNode))
  | failure (msg : String)

/-- `get_nodes(selectors)`: run the built command; on
`CalledProcessError` raise `AnsibleRuntimeError(f"failed to get nodes: {err}")`;
on success return `json.loads(output).get("items", [])`. -/
def get_nodes (runCmd : List String → CmdOutcome) (selectors : AList (Option String)) :
    Except BuildError (List RawNode) :=
  match runCmd (buildCmd selectors) with
  | .failure msg => .error (.sourceUnavailable ("failed to get nodes: " ++ msg))
  | .success items => .ok (items.getD [])

/-- One whole build (`parse` after config reading): fetch the node list
with the configured selectors, then `add_nodes`. -/
def runBuild (runCmd : List String → CmdOutcome) (cfg : Config) (inv : Inventory) :
    Inventory × Option BuildError :=
  match get_nodes runCmd cfg.node_selectors with
  | .error e => (inv, some e)
  | .ok nodes => add_nodes cfg inv nodes

/-- The per-entry selector constraint as the spec words it: an absent
value means "key present, any value" (`-l k`), a present value means
exact match (`-l k=v`). -/
def selectorConstraint (kv : String × Option String) : List String :=
  match kv.2 with
  | none => ["-l", kv.1]
  | some v => ["-l", kv.1 ++ "=" ++ v]

/-- Names of the hosts currently in the inventory, in insertion order. -/
def hostNames (inv : Inventory) : List String := inv.hosts.map Prod.fst

/-- `node.metadata.name` when present. -/
def nodeName (node : RawNode) : Option String := node.metadata.bind (·.name)

/-- The names carried by a node list. -/
def nodeNames (nodes : List RawNode) : List String := nodes.filterMap nodeName

/-! ## Concrete fixtures -/

/-- A complete node: the given name and labels, the spec's example address
list, empty annotations and nodeInfo. -/
def mkNode (name : String) (labels : AList Value) : RawNode :=
  { metadata := some { name := some name, labels := some labels, annotations := some [] },
    status := some { addresses := some [⟨"InternalIP", "10.0.0.1"⟩, ⟨"Hostname", "n1"⟩],
                     nodeInfo := some [] } }

/-- Baseline configuration: InternalIP preference, everything else empty. -/
def cfg0 : Config :=
  { vars := [], address_from := "InternalIP", node_selectors := [],
    compose := [], groups := [], keyed_groups := [], strict := false }

/-- The spec's example node for address resolution. -/
def nodeC3 : RawNode := mkNode "n1" []

/-- The same node with no `InternalIP` entry. -/
def nodeC3b : RawNode :=
  { metadata := some { name := some "n1", labels := some [], annotations := some [] },
    status := some { addresses := some [⟨"Hostname", "n1"⟩], nodeInfo := some [] } }

/-! ## General lemmas -/

/-- The inline generator resolves to the head of the filtered address list. -/
theorem resolveAddress_eq_filter_head (addrs : List Address) (pref : String) :
    resolveAddress addrs pref
      = ((addrs.filter (fun a => a.type = pref)).head?).map Address.address := by
  induction addrs with
  | nil => rfl
  | cons a rest ih =>
      by_cases h : a.type = pref <;>
        simp [resolveAddress, List.filter_cons, h, ih]

/-- The selector loop is the base command followed by one constraint per
selector entry, in order. -/
theorem buildCmd_eq_constraints (sels : AList (Option String)) :
    buildCmd sels
      = ["kubectl", "get", "nodes", "-o", "json"] ++ sels.flatMap selectorConstraint := by
  suffices h : ∀ (sels : AList (Option String)) (init : List String),
      sels.foldl
        (fun cmd kv =>
          match kv.2 with
          | none => cmd ++ ["-l", kv.1]
          | some v => cmd ++ ["-l", kv.1 ++ "=" ++ v])
        init = init ++ sels.flatMap selectorConstraint by
    exact h sels _
  intro sels
  induction sels with
  | nil => simp [List.foldl]
  | cons kv rest ih =>
      intro init
      obtain ⟨k, v⟩ := kv
      cases v <;> simp [List.foldl, selectorConstraint, ih, List.append_assoc]

/-! ## Host-name preservation lemmas (for the C8 invariant) -/

theorem setHostVar_map_fst (hosts : AList (AList Value)) (h key : String) (v : Value) :
    (setHostVar hosts h key v).map Prod.fst = hosts.map Prod.fst := by
  induction hosts with
  | nil => rfl
  | cons kv rest ih =>
      obtain ⟨k, vs⟩ := kv
      by_cases hk : k = h <;> simp [setHostVar, hk, ih]

theorem hostNames_setVariable (inv : Inventory) (h key : String) (v : Value) :
    hostNames (setVariable inv h key v) = hostNames inv :=
  setHostVar_map_fst inv.hosts h key v

theorem addHostList_map_fst (hosts : AList (AList Value)) (h : String) :
    (addHostList hosts h).map Prod.fst
      = if h ∈ hosts.map Prod.fst then hosts.map Prod.fst
        else hosts.map Prod.fst ++ [h] := by
  induction hosts with
  | nil => simp [addHostList]
  | cons kv rest ih =>
      obtain ⟨k, vs⟩ := kv
      by_cases hk : k = h
      · simp [addHostList, hk]
      · by_cases hm : h ∈ rest.map Prod.fst <;>
          simp [addHostList, hk, ih, hm, Ne.symm hk]

theorem hostNames_setStaticVars (vars : AList Value) (inv : Inventory) (h : String) :
    hostNames (setStaticVars inv h vars) = hostNames inv := by
  induction vars generalizing inv with
  | nil => rfl
  | cons kv rest ih =>
      obtain ⟨k, v⟩ := kv
      rw [setStaticVars, ih, hostNames_setVariable]

theorem hostNames_setCompositeVarsAux (snapshot : AList Value) (host : String)
    (strict : Bool) (compose : AList Expr) (inv : Inventory) :
    hostNames (setCompositeVarsAux snapshot host strict inv compose).1 = hostNames inv := by
  induction compose generalizing inv with
  | nil => rfl
  | cons kv rest ih =>
      obtain ⟨name, e⟩ := kv
      rw [setCompositeVarsAux]
      cases evalExpr snapshot e with
      | some v => rw [ih, hostNames_setVariable]
      | none =>
          cases strict with
          | true => rfl
          | false => exact ih inv

theorem hosts_addHostToComposedGroupsAux (host : String) (strict : Bool)
    (groups : AList Expr) (inv : Inventory) :
    (addHostToComposedGroupsAux host strict inv groups).1.hosts = inv.hosts := by
  induction groups generalizing inv with
  | nil => rfl
  | cons kv rest ih =>
      obtain ⟨gname, pred⟩ := kv
      rw [addHostToComposedGroupsAux]
      cases hp : evalExpr (hostVars inv host) pred with
      | some v =>
          cases v with
          | vbool b => cases b <;> simp [ih, addHostToGroup]
          | str s => cases strict <;> simp [ih]
          | vmap m => cases strict <;> simp [ih]
      | none => cases strict <;> simp [ih]

theorem hosts_addHostToKeyedGroupsAux (host : String) (strict : Bool)
    (kgs : List KeyedGroup) (inv : Inventory) :
    (addHostToKeyedGroupsAux host strict inv kgs).1.hosts = inv.hosts := by
  induction kgs generalizing inv with
  | nil => rfl
  | cons kg rest ih =>
      rw [addHostToKeyedGroupsAux]
      cases hp : evalExpr (hostVars inv host) kg.key with
      | some v =>
          cases v with
          | str s => simp [ih, addHostToGroup]
          | vbool b => cases strict <;> simp [ih]
          | vmap m => cases strict <;> simp [ih]
      | none => cases strict <;> simp [ih]

/-- `add_node` either leaves the host names unchanged (an error before
the host is added) or they become the names after `add_host` of the
node's own `metadata.name`. -/
theorem add_node_hostNames (cfg : Config) (inv : Inventory) (node : RawNode) :
    hostNames (add_node cfg inv node).1 = hostNames inv
    ∨ ∃ n, nodeName node = some n
        ∧ hostNames (add_node cfg inv node).1
            = (if n ∈ hostNames inv then hostNames inv else hostNames inv ++ [n]) := by
  obtain ⟨md, st⟩ := node
  cases md with
  | none => exact Or.inl rfl
  | some md =>
    cases hn : md.name with
    | none => left; simp [add_node, hn]
    | some hostname =>
      cases st with
      | none => left; simp [add_node, hn]
      | some st =>
        cases ha : st.addresses with
        | none => left; simp [add_node, hn, ha]
        | some addrs =>
          cases hr : resolveAddress addrs cfg.address_from with
          | none => left; simp [add_node, hn, ha, hr]
          | some addr =>
            right
            refine ⟨hostname, by simp [nodeName, hn], ?_⟩
            have main : hostNames (add_node cfg inv ⟨some md, some st⟩).1
                = (addHostList inv.hosts hostname).map Prod.fst := ?_
            · rw [main, addHostList_map_fst]; rfl
            rw [add_node]
            simp only [hn, ha, hr]
            cases hl : md.labels with
            | none => simp [hostNames, setVariable, addHost, setHostVar_map_fst]
            | some labels =>
              cases hann : md.annotations with
              | none => simp [hostNames, setVariable, addHost, setHostVar_map_fst]
              | some annots =>
                cases hni : st.nodeInfo with
                | none => simp [hostNames, setVariable, addHost, setHostVar_map_fst]
                | some ninfo =>
                  set base := setStaticVars
                      (setVariable
                        (setVariable
                          (setVariable
                            (setVariable (addHost ⟨inv.hosts, inv.groups⟩ hostname)
                              hostname "ansible_host" (Value.str addr))
                            hostname "node_labels" (Value.vmap labels))
                          hostname "node_annotations" (Value.vmap annots))
                        hostname "node_info" (Value.vmap ninfo))
                      hostname cfg.vars with hbase
                  have hbaseNames : hostNames base
                      = (addHostList inv.hosts hostname).map Prod.fst := by
                    rw [hbase, hostNames_setStaticVars, hostNames_setVariable,
                      hostNames_setVariable, hostNames_setVariable, hostNames_setVariable]
                    rfl
                  rcases hsc : setCompositeVars base hostname cfg.compose true
                      with ⟨inv1, e1⟩
                  have hnames1 : hostNames inv1
                      = (addHostList inv.hosts hostname).map Prod.fst := by
                    have h1 : hostNames (setCompositeVars base hostname cfg.compose true).1
                        = hostNames base :=
                      hostNames_setCompositeVarsAux (hostVars base hostname) hostname
                        true cfg.compose base
                    rw [hsc] at h1
                    exact h1.trans hbaseNames
                  cases e1 with
                  | some e => simpa [hsc] using hnames1
                  | none =>
                    rcases hcg : addHostToComposedGroupsAux hostname cfg.strict inv1
                        cfg.groups with ⟨inv2, e2⟩
                    have hnames2 : hostNames inv2 = hostNames inv1 := by
                      have h2 := hosts_addHostToComposedGroupsAux hostname cfg.strict
                        cfg.groups inv1
                      rw [hcg] at h2
                      simp only [hostNames]
                      rw [show inv2.hosts = inv1.hosts from h2]
                    cases e2 with
                    | some e => simp only [hsc, hcg]; rw [hnames2, hnames1]
                    | none =>
                      simp only [hsc, hcg]
                      have h3 := hosts_addHostToKeyedGroupsAux hostname cfg.strict
                        cfg.keyed_groups inv2
                      simp only [hostNames]
                      rw [show (addHostToKeyedGroupsAux hostname cfg.strict inv2
                            cfg.keyed_groups).1.hosts = inv2.hosts from h3]
                      rw [show List.map Prod.fst inv2.hosts = hostNames inv2 from rfl,
                        hnames2, hnames1]

/-- `add_node` keeps host names duplicate-free. -/
theorem add_node_nodup (cfg : Config) (inv : Inventory) (node : RawNode)
    (h : (hostNames inv).Nodup) : (hostNames (add_node cfg inv node).1).Nodup := by
  rcases add_node_hostNames cfg inv node with heq | ⟨n, _, heq⟩
  · rwa [heq]
  · rw [heq]
    by_cases hm : n ∈ hostNames inv
    · simpa [hm]
    · simp [hm, List.nodup_append, h]

/-- Every host name after `add_node` was already a host name or is the
node's own name. -/
theorem add_node_mem (cfg : Config) (inv : Inventory) (node : RawNode) (x : String)
    (hx : x ∈ hostNames (add_node cfg inv node).1) :
    x ∈ hostNames inv ∨ nodeName node = some x := by
  rcases add_node_hostNames cfg inv node with heq | ⟨n, hname, heq⟩
  · rw [heq] at hx; exact Or.inl hx
  · rw [heq] at hx
    by_cases hm : n ∈ hostNames inv
    · rw [if_pos hm] at hx; exact Or.inl hx
    · rw [if_neg hm] at hx
      rcases List.mem_append.mp hx with h1 | h1
      · exact Or.inl h1
      · rw [List.mem_singleton] at h1; subst h1; exact Or.inr hname

/-- `add_node` adds at most one host. -/
theorem add_node_length (cfg : Config) (inv : Inventory) (node : RawNode) :
    (add_node cfg inv node).1.hosts.length ≤ inv.hosts.length + 1 := by
  rcases add_node_hostNames cfg inv node with heq | ⟨n, _, heq⟩
  · have := congrArg List.length heq
    simp only [hostNames, List.length_map] at this
    omega
  · by_cases hm : n ∈ hostNames inv
    · rw [if_pos hm] at heq
      have := congrArg List.length heq
      simp only [hostNames, List.length_map] at this
      omega
    · rw [if_neg hm] at heq
      have := congrArg List.length heq
      simp only [hostNames, List.length_map, List.length_append,
        List.length_singleton] at this
      omega

/-- The build-level invariant behind C8: starting from duplicate-free
host names, processing any node list keeps the names duplicate-free,
introduces only names carried by the nodes, and adds at most one host
per node — whether or not the build ends in an error. -/
theorem add_nodes_invariant (cfg : Config) (nodes : List RawNode) :
    ∀ inv : Inventory, (hostNames inv).Nodup →
      (hostNames (add_nodes cfg inv nodes).1).Nodup
      ∧ (∀ x ∈ hostNames (add_nodes cfg inv nodes).1,
            x ∈ hostNames inv ∨ x ∈ nodeNames nodes)
      ∧ (add_nodes cfg inv nodes).1.hosts.length ≤ inv.hosts.length + nodes.length := by
  induction nodes with
  | nil =>
      intro inv h
      exact ⟨h, fun x hx => Or.inl hx, by simp [add_nodes]⟩
  | cons node rest ih =>
      intro inv h
      rcases hAn : add_node cfg inv node with ⟨inv1, e1⟩
      have hfst : (add_node cfg inv node).1 = inv1 := by rw [hAn]
      have hnodup1 : (hostNames inv1).Nodup := hfst ▸ add_node_nodup cfg inv node h
      have hmem1 : ∀ x ∈ hostNames inv1, x ∈ hostNames inv ∨ nodeName node = some x :=
        fun x hx => add_node_mem cfg inv node x (hfst ▸ hx)
      have hlen1 : inv1.hosts.length ≤ inv.hosts.length + 1 :=
        hfst ▸ add_node_length cfg inv node
      have hcons : ∀ x, nodeName node = some x → x ∈ nodeNames (node :: rest) := by
        intro x hx
        simp [nodeNames, List.filterMap_cons, hx]
      cases e1 with
      | some e =>
          simp only [add_nodes, hAn]
          refine ⟨hnodup1, fun x hx => ?_, by simp only [List.length_cons]; omega⟩
          rcases hmem1 x hx with h1 | h1
          · exact Or.inl h1
          · exact Or.inr (hcons x h1)
      | none =>
          obtain ⟨ih1, ih2, ih3⟩ := ih inv1 hnodup1
          simp only [add_nodes, hAn]
          refine ⟨ih1, fun x hx => ?_, by simp only [List.length_cons]; omega⟩
          rcases ih2 x hx with h1 | h1
          · rcases hmem1 x h1 with h2 | h2
            · exact Or.inl h2
            · exact Or.inr (hcons x h2)
          · refine Or.inr ?_
            simp only [nodeNames, List.filterMap_cons]
            cases nodeName node <;> simp [nodeNames] at h1 ⊢ <;> simp [h1]

/-! ## Claim theorems -/

/-- C3: for every address list and configured preferred kind the resolver
returns the value of the first entry whose kind matches (the head of the
filtered list); on the spec's example node, `InternalIP` yields
`ansible_host == "10.0.0.1"` and `Hostname` yields `"n1"`; when no entry
matches the node fails with the `StopIteration` (`AddressNotFound`)
error. -/
theorem C3_address_resolution :
    (∀ (addrs : List Address) (pref : String),
        resolveAddress addrs pref
          = ((addrs.filter (fun a => a.type = pref)).head?).map Address.address)
    ∧ alistGet (hostVars (add_node cfg0 emptyInventory nodeC3).1 "n1") "ansible_host"
        = some (Value.str "10.0.0.1")
    ∧ alistGet
        (hostVars (add_node { cfg0 with address_from := "Hostname" }
            emptyInventory nodeC3).1 "n1") "ansible_host"
        = some (Value.str "n1")
    ∧ add_node cfg0 emptyInventory nodeC3b
        = (emptyInventory, some BuildError.stopIteration) :=
  ⟨resolveAddress_eq_filter_head, rfl, rfl, rfl⟩

/-- C7: every selector entry with an absent value becomes the single
constraint `-l key` ("key present, any value") and every entry with a
value becomes `-l key=value`, appended to the base command as independent
constraints in entry order; the example map yields exactly `role=worker`
and `zone`. -/
theorem C7_selector_translation :
    (∀ sels : AList (Option String),
        buildCmd sels
          = ["kubectl", "get", "nodes", "-o", "json"] ++ sels.flatMap selectorConstraint)
    ∧ (∀ k : String, selectorConstraint (k, none) = ["-l", k])
    ∧ (∀ (k v : String), selectorConstraint (k, some v) = ["-l", k ++ "=" ++ v])
    ∧ buildCmd [("role", some "worker"), ("zone", none)]
        = ["kubectl", "get", "nodes", "-o", "json", "-l", "role=worker", "-l", "zone"] :=
  ⟨buildCmd_eq_constraints, fun _ => rfl, fun _ _ => rfl, rfl⟩

/-- C9: whenever the node-listing command exits with an error, `get_nodes`
raises the single descriptive `AnsibleRuntimeError` ("failed to get
nodes: ...") and the whole build fails with it, leaving the inventory
exactly as it was — no partial node list, no hosts from that
invocation. -/
theorem C9_source_failure_fatal (runCmd : List String → CmdOutcome) (cfg : Config)
    (inv : Inventory) (msg : String)
    (h : runCmd (buildCmd cfg.node_selectors) = CmdOutcome.failure msg) :
    get_nodes runCmd cfg.node_selectors
        = Except.error (BuildError.sourceUnavailable ("failed to get nodes: " ++ msg))
      ∧ runBuild runCmd cfg inv
        = (inv, some (BuildError.sourceUnavailable ("failed to get nodes: " ++ msg))) := by
  constructor <;> simp [get_nodes, runBuild, h]

/-- Witness for C9 at a concrete failing command. -/
theorem C9_source_failure_fatal_witness :
    get_nodes (fun _ => CmdOutcome.failure "exit 1") cfg0.node_selectors
        = Except.error (BuildError.sourceUnavailable ("failed to get nodes: " ++ "exit 1"))
      ∧ runBuild (fun _ => CmdOutcome.failure "exit 1") cfg0 emptyInventory
        = (emptyInventory,
            some (BuildError.sourceUnavailable ("failed to get nodes: " ++ "exit 1"))) :=
  C9_source_failure_fatal (fun _ => CmdOutcome.failure "exit 1") cfg0 emptyInventory
    "exit 1" rfl

/-- C10: when the command succeeds and its JSON output has no top-level
`items` key, `get_nodes` returns the empty list and the whole build
completes successfully with zero hosts added. -/
theorem C10_missing_items_key (runCmd : List String → CmdOutcome) (cfg : Config)
    (inv : Inventory)
    (h : runCmd (buildCmd cfg.node_selectors) = CmdOutcome.success none) :
    get_nodes runCmd cfg.node_selectors = Except.ok []
      ∧ runBuild runCmd cfg inv = (inv, none) := by
  constructor <;> simp [get_nodes, runBuild, h, add_nodes]

/-- Witness for C10 at a concrete itemless-output command. -/
theorem C10_missing_items_key_witness :
    get_nodes (fun _ => CmdOutcome.success none) cfg0.node_selectors = Except.ok []
      ∧ runBuild (fun _ => CmdOutcome.success none) cfg0 emptyInventory
        = (emptyInventory, none) :=
  C10_missing_items_key (fun _ => CmdOutcome.success none) cfg0 emptyInventory rfl

/-- C4: composed-variable evaluation is invoked with strict forced `true`
regardless of the configured global strictness flag: for either value of
the flag, an unresolvable composed expression is a hard failure for the
host; by contrast the same bad expression as a composed-group predicate
under a false global flag is silently skipped. -/
theorem C4_compose_always_strict (b : Bool) :
    (add_node { cfg0 with strict := b, compose := [("x", Expr.var "missing")] }
        emptyInventory (mkNode "n1" [])).2
      = some (BuildError.expressionError "x" "n1")
    ∧ (add_node { cfg0 with strict := false, groups := [("g", Expr.var "missing")] }
        emptyInventory (mkNode "n1" [])).2 = none := by
  cases b <;> exact ⟨rfl, rfl⟩

/-- The spec's variable-precedence example configuration: static
`role=worker` and composed `role = node_labels.role`. -/
def cfgC1 : Config :=
  { cfg0 with
      vars := [("role", Value.str "worker")],
      compose := [("role", Expr.attr (Expr.var "node_labels") "role")] }

/-- C1: the variable mapping is built fixed-derived → static → composed
with later steps overwriting: a node labeled `role: r` with static
`role=worker` and composed `role = node_labels.role` ends with
`role == r` (composed overrides static; for `r = "edge"` this is the
spec's example); a static var named `node_labels` overwrites the fixed
derived `node_labels`; duplicate static vars apply in declaration order,
the later one winning. -/
theorem C1_variable_precedence (r : String) :
    ((add_node cfgC1 emptyInventory (mkNode "n1" [("role", Value.str r)])).2 = none
      ∧ alistGet
          (hostVars (add_node cfgC1 emptyInventory
              (mkNode "n1" [("role", Value.str r)])).1 "n1") "role"
          = some (Value.str r))
    ∧ alistGet
        (hostVars (add_node { cfg0 with vars := [("node_labels", Value.str "static")] }
            emptyInventory (mkNode "n1" [("k", Value.str "v")])).1 "n1") "node_labels"
        = some (Value.str "static")
    ∧ alistGet
        (hostVars (add_node
            { cfg0 with vars := [("a", Value.str "1"), ("a", Value.str "2")] }
            emptyInventory (mkNode "n1" [])).1 "n1") "a"
        = some (Value.str "2") :=
  ⟨⟨rfl, rfl⟩, rfl, rfl⟩

/-- A keyed group keying on a variable set only by composed-variable
evaluation. -/
def resC5a : Inventory × Option BuildError :=
  add_node
    { cfg0 with compose := [("zone", Expr.lit (Value.str "z1"))],
                keyed_groups := [⟨Expr.var "zone", "k", "_"⟩] }
    emptyInventory (mkNode "n1" [])

/-- A composed group with a true predicate followed by a keyed group. -/
def resC5b : Inventory × Option BuildError :=
  add_node
    { cfg0 with groups := [("cg", Expr.lit (Value.vbool true))],
                keyed_groups := [⟨Expr.lit (Value.str "z"), "k", "_"⟩] }
    emptyInventory (mkNode "n1" [])

/-- Two nodes, a failing composed-group predicate, strict on. -/
def resC5strict : Inventory × Option BuildError :=
  add_nodes { cfg0 with strict := true, groups := [("g", Expr.var "missing")] }
    emptyInventory [mkNode "n1" [], mkNode "n2" []]

/-- Two nodes, a failing composed-group predicate, strict off. -/
def resC5lenient : Inventory × Option BuildError :=
  add_nodes { cfg0 with strict := false, groups := [("g", Expr.var "missing")] }
    emptyInventory [mkNode "n1" [], mkNode "n2" []]

/-- C5: group assignment runs composed-groups before keyed-groups (the
created groups appear in that order, and a keyed group can key on a
variable set only by composed-variable evaluation), and both strategies
receive the configured strictness: a failing composed-group predicate or
keyed-group key aborts the whole build under `strict = true` (the second
node is never processed) and is skipped with the build continuing under
`strict = false`. -/
theorem C5_group_assignment_order_and_strictness :
    (resC5a.2 = none ∧ resC5a.1.groups = [("k_z1", ["n1"])])
    ∧ (resC5b.2 = none ∧ resC5b.1.groups = [("cg", ["n1"]), ("k_z", ["n1"])])
    ∧ (resC5strict.2 = some (BuildError.expressionError "g" "n1")
        ∧ hostNames resC5strict.1 = ["n1"])
    ∧ (resC5lenient.2 = none ∧ hostNames resC5lenient.1 = ["n1", "n2"]
        ∧ resC5lenient.1.groups = [])
    ∧ (add_node { cfg0 with strict := true, keyed_groups := [⟨Expr.var "missing", "k", "_"⟩] }
        emptyInventory (mkNode "n1" [])).2 = some (BuildError.expressionError "k" "n1")
    ∧ (add_node { cfg0 with strict := false, keyed_groups := [⟨Expr.var "missing", "k", "_"⟩] }
        emptyInventory (mkNode "n1" [])).2 = none :=
  ⟨⟨rfl, rfl⟩, ⟨rfl, rfl⟩, ⟨rfl, rfl⟩, ⟨rfl, rfl, rfl⟩, rfl, rfl⟩

/-- A node whose `metadata` map has no `name` key. -/
def nodeNoName : RawNode :=
  { metadata := some { name := none, labels := some [], annotations := some [] },
    status := some { addresses := some [⟨"InternalIP", "10.0.0.1"⟩], nodeInfo := some [] } }

/-- The spec's partial-failure example list: three nodes, the second
lacking `metadata.name`. -/
def nodes3 : List RawNode := [mkNode "n1" [], nodeNoName, mkNode "n3" []]

/-- C2 counterexample: on the 3-node list whose second node lacks
`metadata.name`, the build aborts with `KeyError: name` after producing
only one host — not the claimed two hosts with a reported per-node error
and a continuing build. -/
theorem C2_counterexample :
    (add_nodes cfg0 emptyInventory nodes3).2 = some (BuildError.keyError "name")
    ∧ hostNames (add_nodes cfg0 emptyInventory nodes3).1 = ["n1"]
    ∧ (add_nodes cfg0 emptyInventory nodes3).1.hosts.length ≠ 2 :=
  ⟨rfl, rfl, by decide⟩

/-- C2 amended: a node whose description lacks `metadata.name` raises
`KeyError` and aborts the entire build at that node — whatever nodes
follow are never processed and the inventory is left as it stood; on the
3-node example only the first node's host exists and the build fails,
rather than skipping the malformed node and continuing. -/
theorem C2_missing_name_aborts_build (cfg : Config) (inv : Inventory)
    (rest : List RawNode) :
    add_nodes cfg inv (nodeNoName :: rest) = (inv, some (BuildError.keyError "name"))
    ∧ (add_nodes cfg0 emptyInventory nodes3).2 = some (BuildError.keyError "name")
    ∧ hostNames (add_nodes cfg0 emptyInventory nodes3).1 = ["n1"] :=
  ⟨rfl, rfl, rfl⟩

/-- A named node missing `status.addresses`. -/
def nodeNoAddrs : RawNode :=
  { metadata := some { name := some "n1", labels := some [], annotations := some [] },
    status := some { addresses := none, nodeInfo := some [] } }

/-- A named node missing `metadata.labels`. -/
def nodeNoLabels : RawNode :=
  { metadata := some { name := some "n1", labels := none, annotations := some [] },
    status := some { addresses := some [⟨"InternalIP", "10.0.0.1"⟩], nodeInfo := some [] } }

/-- A named node missing `metadata.annotations`. -/
def nodeNoAnnots : RawNode :=
  { metadata := some { name := some "n1", labels := some [], annotations := none },
    status := some { addresses := some [⟨"InternalIP", "10.0.0.1"⟩], nodeInfo := some [] } }

/-- A named node missing `status.nodeInfo`. -/
def nodeNoInfo : RawNode :=
  { metadata := some { name := some "n1", labels := some [], annotations := some [] },
    status := some { addresses := some [⟨"InternalIP", "10.0.0.1"⟩], nodeInfo := none } }

/-- C6 counterexample: a node with `metadata.name` but no
`metadata.labels` does not get an empty map substituted — `add_node`
raises `KeyError: labels`, so the missing field is fatal. -/
theorem C6_counterexample :
    (add_node cfg0 emptyInventory nodeNoLabels).2 = some (BuildError.keyError "labels") :=
  rfl

/-- C6 amended: missing optional node fields are NOT tolerated — with
`metadata.name` present, a missing `status.addresses`, `metadata.labels`,
`metadata.annotations` or `status.nodeInfo` raises `KeyError` for that
field and the node fails (aborting the build); nothing is normalized to
an empty map or list (for a missing `status.addresses` the host is not
even added). -/
theorem C6_missing_fields_fatal :
    (add_node cfg0 emptyInventory nodeNoAddrs).2 = some (BuildError.keyError "addresses")
    ∧ (add_node cfg0 emptyInventory nodeNoAddrs).1 = emptyInventory
    ∧ (add_node cfg0 emptyInventory nodeNoLabels).2 = some (BuildError.keyError "labels")
    ∧ (add_node cfg0 emptyInventory nodeNoAnnots).2 = some (BuildError.keyError "annotations")
    ∧ (add_node cfg0 emptyInventory nodeNoInfo).2 = some (BuildError.keyError "nodeInfo") :=
  ⟨rfl, rfl, rfl, rfl, rfl⟩

/-- Two nodes sharing the name `n1`, with different labels. -/
def dupRes : Inventory × Option BuildError :=
  add_nodes cfg0 emptyInventory
    [mkNode "n1" [("v", Value.str "1")], mkNode "n1" [("v", Value.str "2")]]

/-- C8: within one build (from an empty inventory) host names stay
unique, every produced host name is some node's `metadata.name`, and the
host count is at most the node count; on a duplicate-name pair the build
succeeds with a single host whose variables come from the later node
(last-write-wins), rather than raising an error. -/
theorem C8_host_uniqueness_last_write_wins (cfg : Config) (nodes : List RawNode) :
    (hostNames (add_nodes cfg emptyInventory nodes).1).Nodup
    ∧ (∀ x ∈ hostNames (add_nodes cfg emptyInventory nodes).1, x ∈ nodeNames nodes)
    ∧ (add_nodes cfg emptyInventory nodes).1.hosts.length ≤ nodes.length
    ∧ dupRes.2 = none
    ∧ hostNames dupRes.1 = ["n1"]
    ∧ alistGet (hostVars dupRes.1 "n1") "node_labels"
        = some (Value.vmap [("v", Value.str "2")]) := by
  obtain ⟨h1, h2, h3⟩ :=
    add_nodes_invariant cfg nodes emptyInventory (by simp [hostNames, emptyInventory])
  refine ⟨h1, fun x hx => ?_, by simpa [emptyInventory] using h3, rfl, rfl, rfl⟩
  rcases h2 x hx with h | h
  · simp [hostNames, emptyInventory] at h
  · exact h

/-- Closed instance of C8 at a concrete duplicate-name node list. -/
theorem C8_host_uniqueness_last_write_wins_witness :
    (hostNames dupRes.1).Nodup
    ∧ "n1" ∈ nodeNames [mkNode "n1" [("v", Value.str "1")], mkNode "n1" [("v", Value.str "2")]]
    ∧ dupRes.1.hosts.length
        ≤ (([mkNode "n1" [("v", Value.str "1")], mkNode "n1" [("v", Value.str "2")]] :
              List RawNode)).length :=
  have h := C8_host_uniqueness_last_write_wins cfg0
    [mkNode "n1" [("v", Value.str "1")], mkNode "n1" [("v", Value.str "2")]]
  ⟨h.1, h.2.1 "n1" (by decide), h.2.2.1⟩

end KubeNodes
